import Mathlib

/-!
Verification of the CIFAR-10 DenseNet training program (`cifar10.py`)
against its natural-language specification.

The program builds a dense convolutional network and a gradient-descent
training step in a tensor graph library.  We embed the shape-level and
value-level behaviour of the source functions:

* `conv2d`, `unit_layer`, `block`, `transition`, `global_average_pooling2d`,
  `inference` — shape transformers over 4-D feature maps;
* `loss` — the cross-entropy/regularization pooling over a mutable
  `losses` collection;
* `train` — the learning-rate schedule, the SGD parameter update and the
  control-dependency graph of the per-step ops.

Machine integers are modelled as `Int`/`Nat`; Python's `int(a/b)` (true
division followed by truncation toward zero) is modelled by `Int.tdiv`.
Loss values are modelled over `ℚ`; the transcendental softmax kernel,
whose exact value no claim depends on, is a parameter of the loss model.
-/

namespace Cifar10

/-- Python `int(a / b)`: true division truncated toward zero, which is
exactly Lean's `Int.tdiv` (T-division). -/
def pyIntDiv (a b : Int) : Int := Int.tdiv a b

/-- Python `range(n)` iterates `n` times for `n > 0` and zero times for
`n ≤ 0`; `Int.toNat` clamps negatives to `0` in the same way. -/
def pyRangeLen (n : Int) : Nat := n.toNat

/-- Modelled from the spec: `NUM_CLASSES` is imported from
`cifar10_input` (not part of the given sources); the spec fixes it to 10. -/
def NUM_CLASSES : Nat := 10

/-- Shape of a 4-D feature map `[batch, height, width, channels]`
(`src/cifar10.py` data model). -/
structure Shape where
  batch : Nat
  height : Nat
  width : Nat
  channels : Nat
deriving DecidableEq, Repr

/-- Output extent of a dimension under `padding='SAME'` convolution:
`ceil(n / stride)`. -/
def sameOut (n stride : Nat) : Nat := (n + stride - 1) / stride

/-- Source `conv2d(features, kernel_size, stride, out_channel)`
(`src/cifar10.py:164`): SAME padding, so spatial dims become
`ceil(n/stride)`; channel count becomes `out_channel`.  The kernel size
does not affect the output shape under SAME padding. -/
def conv2dShape (s : Shape) (kernelSize stride outChannel : Nat) : Shape :=
  ⟨s.batch, sameOut s.height stride, sameOut s.width stride, outChannel⟩

/-- Source `unit_layer(features, out_channel, training)` (`src/cifar10.py:212`):
batch-norm, relu and dropout keep the shape; the 3×3 stride-1 SAME
convolution keeps spatial dims and sets the channel count.  The
`training` flag only toggles dropout/batch-norm statistics and never
changes shapes. -/
def unitLayerShape (s : Shape) (outChannel : Nat) (training : Bool) : Shape :=
  conv2dShape s 3 1 outChannel

/-- Concatenation `tf.concat([a, b], axis=3)`: channel-axis concatenation
(batch/height/width taken from the first operand, which the program only
calls with matching operands). -/
def concatShape (a b : Shape) : Shape :=
  ⟨a.batch, a.height, a.width, a.channels + b.channels⟩

/-- Source `block(features, depth, growth_rate, training)` (`src/cifar10.py:221`):
`depth` iterations, each concatenating a `growth_rate`-channel
`unit_layer` output onto the running feature map. -/
def blockShape (s : Shape) (depth growthRate : Nat) (training : Bool) : Shape :=
  match depth with
  | 0 => s
  | d + 1 =>
      blockShape (concatShape s (unitLayerShape s growthRate training)) d growthRate training

/-- Channel-segment trace of `block`: the feature map as a list of slabs,
the input's own slabs followed by one slab per unit, labelled by the unit's
iteration index.  Mirrors the loop
`for i in range(depth): features = concat([features, unit])`. -/
def blockSegsAux (fs : List Nat) (i n : Nat) : List Nat :=
  match n with
  | 0 => fs
  | m + 1 => blockSegsAux (fs ++ [i]) (i + 1) m

/-- The slab order produced by `block` starting from input slabs `init`. -/
def blockSegs (init : List Nat) (depth : Nat) : List Nat :=
  blockSegsAux init 0 depth

/-- Output extent of one dimension under
`average_pooling2d(pool_size=2, strides=2, padding='valid')`:
`floor((n - 2)/2) + 1` when the window fits, `0` otherwise. -/
def avgPool2Out (n : Nat) : Nat := if n < 2 then 0 else (n - 2) / 2 + 1

/-- Source `transition(features, training, scope)` (`src/cifar10.py:229`): a
`unit_layer` whose output channel count is the input's own channel count,
then 2×2 stride-2 valid average pooling. -/
def transitionShape (s : Shape) (training : Bool) : Shape :=
  let unit := unitLayerShape s s.channels training
  ⟨unit.batch, avgPool2Out unit.height, avgPool2Out unit.width, unit.channels⟩

/-- Source `global_average_pooling2d` (`src/cifar10.py:237`): mean over axes 1, 2,
collapsing a 4-D feature map to `[batch, channels]`. -/
def globalAvgPoolShape (s : Shape) : Nat × Nat := (s.batch, s.channels)

/-- Stage depths computed by `inference` (`src/cifar10.py:255-265`):
`first = second = int((depth - 4)/3)`,
`third = depth - (4 + first + second)`. -/
def stageDepths (depth : Int) : Int × Int × Int :=
  let first := pyIntDiv (depth - 4) 3
  let second := pyIntDiv (depth - 4) 3
  (first, second, depth - (4 + first + second))

/-- Source `inference(images, training)` (`src/cifar10.py:241`): initial 3×3
stride-1 16-channel convolution, three (dense block, transition) stages
with the computed stage depths, batch-norm + relu, global average
pooling, and a `NUM_CLASSES`-unit dense classifier head.  Each block's
iteration count is `range(stage_depth)`, empty when the stage depth is
not positive.  Returns the logits shape `[batch, NUM_CLASSES]`. -/
def inferenceShape (images : Shape) (depth : Int) (growthRate : Nat)
    (training : Bool) : Nat × Nat :=
  let conv0 := conv2dShape images 3 1 16
  let ds := stageDepths depth
  let block1 := blockShape conv0 (pyRangeLen ds.1) growthRate training
  let dense1 := transitionShape block1 training
  let block2 := blockShape dense1 (pyRangeLen ds.2.1) growthRate training
  let dense2 := transitionShape block2 training
  let block3 := blockShape dense2 (pyRangeLen ds.2.2) growthRate training
  let dense3 := transitionShape block3 training
  let last := globalAvgPoolShape dense3
  (last.1, NUM_CLASSES)

/-!
## The loss computation (`loss`, `src/cifar10.py:292-316`)

`loss(logits, labels)` casts `labels` to `int64`, computes the
per-example sparse softmax cross-entropy, takes its batch mean, then
mutates the graph's `'losses'` collection: it extends it with every
tensor currently in the `REGULARIZATION_LOSSES` collection and appends
the cross-entropy mean, and finally returns `add_n` over the whole
`'losses'` collection.  We model the two collections as lists of `ℚ`
values and the per-example softmax kernel (the only transcendental
ingredient, whose value no claim depends on) as an explicit function
parameter `kernel : logits row → label → ℚ`.
-/

/-- Cast `tf.cast(x, tf.int64)` on a numeric value: truncation toward zero.
On a rational `q` this is `q.num.tdiv q.den`.  The float16 labels the
input pipeline produces under `use_fp16` carry integral class indices
(0–9, exactly representable), so the rational model is exact. -/
def castToInt64 (q : ℚ) : Int := Int.tdiv q.num (q.den : Int)

/-- Mean `tf.reduce_mean` over a 1-D tensor. -/
def reduceMean (xs : List ℚ) : ℚ := xs.sum / (xs.length : ℚ)

/-- The graph-collection state read and mutated by `loss`: the `'losses'`
collection and the `REGULARIZATION_LOSSES` collection (one scalar per
registered L2 penalty). -/
structure LossState where
  losses : List ℚ
  reg : List ℚ
deriving DecidableEq, Repr

/-- Source `loss(logits, labels)` (`src/cifar10.py:292`): cast labels to int64,
mean per-example cross-entropy, extend `'losses'` with the registered
regularization penalties, append the cross-entropy mean, return the sum
of the resulting `'losses'` collection together with the mutated state. -/
def lossCall (kernel : List ℚ → Int → ℚ) (logits : List (List ℚ))
    (labels : List ℚ) (st : LossState) : ℚ × LossState :=
  let labels64 := labels.map castToInt64
  let crossEntropy := (logits.zip labels64).map (fun p => kernel p.1 p.2)
  let crossEntropyMean := reduceMean crossEntropy
  let pool := st.losses ++ st.reg ++ [crossEntropyMean]
  (pool.sum, ⟨pool, st.reg⟩)

/-- The same computation on labels that are already integers (no cast):
the comparison point for the claim that the int64 cast is lossless on
integral labels. -/
def lossCallInt (kernel : List ℚ → Int → ℚ) (logits : List (List ℚ))
    (labels64 : List Int) (st : LossState) : ℚ × LossState :=
  let crossEntropy := (logits.zip labels64).map (fun p => kernel p.1 p.2)
  let crossEntropyMean := reduceMean crossEntropy
  let pool := st.losses ++ st.reg ++ [crossEntropyMean]
  (pool.sum, ⟨pool, st.reg⟩)

/-! ## The training step (`train`, `src/cifar10.py:346-404`) -/

/-- Schedule `tf.train.piecewise_constant(x, boundaries, values)`: `values[0]` for
`x ≤ boundaries[0]`, `values[i]` for `boundaries[i-1] < x ≤ boundaries[i]`,
and the last value for `x` past the last boundary. -/
def piecewiseConstant (x : ℚ) : List ℚ → List ℚ → ℚ
  | [], vs => vs.headD 0
  | _ :: _, [] => 0
  | b :: bs, v :: vs => if x ≤ b then v else piecewiseConstant x bs vs

/-- The learning-rate setup of `train` (`src/cifar10.py:360-369`): the
length assertion `len(lr_boundaries)+1 == len(lr_values)` followed by the
piecewise-constant schedule over
`num_epoch = global_step * batch_size / NUM_EXAMPLES_PER_EPOCH_FOR_TRAIN`.
The `assert` raises before any step runs; we model it as `Except.error`. -/
def trainLrSetup (boundaries values : List ℚ) (batchSize examplesPerEpoch : ℚ) :
    Except String (ℚ → ℚ) :=
  if boundaries.length + 1 = values.length then
    Except.ok (fun globalStep =>
      piecewiseConstant (globalStep * batchSize / examplesPerEpoch) boundaries values)
  else
    Except.error "len(lr_boundaries)+1 must be equal to len(lr_values)"

/-- Spec-side characterisation of a piecewise-constant schedule: the
selected value is `values[k]` where `k` is the number of boundaries
strictly below the query point. -/
def piecewiseConstantSpec (x : ℚ) (boundaries values : List ℚ) : ℚ :=
  values.getD (boundaries.countP (fun b => decide (b < x))) 0

/-- The per-step mutable training state: the trainable parameters and the
global step counter. -/
structure TrainState where
  params : List ℚ
  globalStep : Nat
deriving DecidableEq, Repr

/-- One application of `GradientDescentOptimizer`:
`opt.compute_gradients(total_loss)` reads the parameters as they stand
before the update, `opt.apply_gradients(grads, global_step=global_step)`
applies `param -= lr * grad` and increments the global step by one
(`src/cifar10.py:376-381`). -/
def sgdStep (lr : ℚ) (gradFn : List ℚ → List ℚ) (s : TrainState) : TrainState :=
  ⟨List.zipWith (fun p g => p - lr * g) s.params (gradFn s.params), s.globalStep + 1⟩

/-!
## The control-dependency graph built by `train`
(`src/cifar10.py:373-402`)

`compute_gradients` runs under `tf.control_dependencies([loss_averages_op])`;
`apply_gradient_op` consumes the gradients; `variables_averages_op`
(the parameter exponential moving average, decay 0.9999) is created with
no dependency on `apply_gradient_op`; the final
`tf.control_dependencies([apply_gradient_op, variables_averages_op] + update_ops)`
makes all three prerequisites of the no-op `train_op`.
-/

/-- The per-step graph nodes created by `train`. -/
inductive TrainNode
  | lossAveragesOp
  | computeGrads
  | applyGradientOp
  | variablesAveragesOp
  | updateOps
  | trainOp
deriving DecidableEq, Repr

/-- The direct dependency edges of the graph `train` builds:
`dependsOn a b` means op `a` must run after op `b`. -/
def dependsOn : TrainNode → TrainNode → Bool
  | .computeGrads, .lossAveragesOp => true
  | .applyGradientOp, .computeGrads => true
  | .trainOp, .applyGradientOp => true
  | .trainOp, .variablesAveragesOp => true
  | .trainOp, .updateOps => true
  | _, _ => false

/-- All graph nodes, for bounded reachability. -/
def allTrainNodes : List TrainNode :=
  [.lossAveragesOp, .computeGrads, .applyGradientOp,
   .variablesAveragesOp, .updateOps, .trainOp]

/-- Bounded reachability through dependency edges. -/
def reachesInFuel : Nat → TrainNode → TrainNode → Bool
  | 0, _, _ => false
  | fuel + 1, a, b =>
      dependsOn a b ||
        allTrainNodes.any (fun c => dependsOn a c && reachesInFuel fuel c b)

/-- Relation `runsAfter a b`: the graph forces op `a` to execute after op `b`
(there is a dependency path from `a` down to `b`).  Six nodes, so fuel 6
saturates. -/
def runsAfter (a b : TrainNode) : Bool := reachesInFuel 6 a b

/-! ## Sanity evaluations of the embedding on concrete inputs -/

example : stageDepths 40 = (12, 12, 12) := by decide
example : stageDepths 3 = (0, 0, -1) := by decide
example : stageDepths 0 = (-1, -1, -2) := by decide
example : inferenceShape ⟨128, 32, 32, 3⟩ 40 12 true = (128, 10) := by decide
example : inferenceShape ⟨128, 32, 32, 3⟩ 3 12 true = (128, 10) := by decide
example : transitionShape ⟨1, 17, 17, 16⟩ true = ⟨1, 8, 8, 16⟩ := by decide
example : runsAfter .trainOp .lossAveragesOp = true := by decide
example : runsAfter .variablesAveragesOp .applyGradientOp = false := by decide

/-! ## Helper lemmas -/

/-- SAME padding at stride 1 keeps a spatial dimension. -/
theorem sameOut_one (n : Nat) : sameOut n 1 = n := by
  simp [sameOut]

/-- Valid 2×2 stride-2 average pooling computes exactly `⌊n/2⌋`. -/
theorem avgPool2Out_eq_half (n : Nat) : avgPool2Out n = n / 2 := by
  unfold avgPool2Out
  split <;> omega

/-- A dense block maps `⟨b, h, w, c⟩` to `⟨b, h, w, c + depth * growthRate⟩`. -/
theorem blockShape_eq (depth : Nat) (s : Shape) (growthRate : Nat) (training : Bool) :
    blockShape s depth growthRate training =
      ⟨s.batch, s.height, s.width, s.channels + depth * growthRate⟩ := by
  induction depth generalizing s with
  | zero => simp [blockShape]
  | succ d ih =>
      rw [blockShape, ih]
      simp [concatShape, unitLayerShape, conv2dShape, sameOut_one]
      ring

/-- A transition maps `⟨b, h, w, c⟩` to `⟨b, ⌊h/2⌋, ⌊w/2⌋, c⟩`. -/
theorem transitionShape_eq (s : Shape) (training : Bool) :
    transitionShape s training = ⟨s.batch, s.height / 2, s.width / 2, s.channels⟩ := by
  simp [transitionShape, unitLayerShape, conv2dShape, sameOut_one, avgPool2Out_eq_half]

/-- The slab trace of a dense block appends slabs `i, i+1, …`. -/
theorem blockSegsAux_eq (n fs i : _) :
    blockSegsAux fs i n = fs ++ (List.range n).map (i + ·) := by
  induction n generalizing fs i with
  | zero => simp [blockSegsAux]
  | succ m ih =>
      rw [blockSegsAux, ih]
      simp [List.range_succ_eq_map, List.map_map, Function.comp]
      intro a _
      omega

/-- The slab trace of a dense block is the input slabs followed by the
unit outputs in iteration order `0, 1, …, depth-1`. -/
theorem blockSegs_eq (init : List Nat) (depth : Nat) :
    blockSegs init depth = init ++ List.range depth := by
  rw [blockSegs, blockSegsAux_eq]
  simp

/-- The assembled network always emits `[batch, NUM_CLASSES]` logits. -/
theorem inferenceShape_eq (images : Shape) (depth : Int) (growthRate : Nat)
    (training : Bool) :
    inferenceShape images depth growthRate training = (images.batch, NUM_CLASSES) := by
  simp [inferenceShape, globalAvgPoolShape, transitionShape_eq, blockShape_eq,
    conv2dShape]

/-- Casting an integer into ℚ and truncating back is the identity. -/
theorem castToInt64_intCast (k : Int) : castToInt64 (Int.cast k : ℚ) = k := by
  simp [castToInt64]

/-- The int64 cast inverts the elementwise embedding of integer labels. -/
theorem map_castToInt64_intCast (ks : List Int) :
    List.map castToInt64 (ks.map (fun k : Int => (Int.cast k : ℚ))) = ks := by
  induction ks with
  | nil => rfl
  | cons k tl ih => rw [List.map_cons, List.map_cons, castToInt64_intCast, ih]

/-! ## Claims -/

/-- C1: for every configured depth ≥ 4, the three stage depths used by
`inference` satisfy `first = second = ⌊(depth-4)/3⌋` and
`third = depth - 4 - first - second`, their sum with 4 is exactly
`depth`, and all three are non-negative. -/
theorem stage_depths_split (d : Int) (h : 4 ≤ d) :
    (stageDepths d).1 = Int.fdiv (d - 4) 3 ∧
    (stageDepths d).2.1 = (stageDepths d).1 ∧
    (stageDepths d).2.2 = d - 4 - (stageDepths d).1 - (stageDepths d).2.1 ∧
    4 + (stageDepths d).1 + (stageDepths d).2.1 + (stageDepths d).2.2 = d ∧
    0 ≤ (stageDepths d).1 ∧ 0 ≤ (stageDepths d).2.1 ∧ 0 ≤ (stageDepths d).2.2 := by
  have h4 : (0 : Int) ≤ d - 4 := by omega
  have h3 : (0 : Int) ≤ 3 := by norm_num
  simp only [stageDepths, pyIntDiv]
  rw [Int.tdiv_eq_ediv h4 h3, Int.fdiv_eq_ediv _ h3]
  refine ⟨rfl, trivial, by ring, by omega, by omega, by omega, by omega⟩

/-- Witness for C1 at the default configuration `depth = 40`. -/
theorem stage_depths_split_witness :
    (4 : Int) ≤ 40 ∧
    4 + (stageDepths 40).1 + (stageDepths 40).2.1 + (stageDepths 40).2.2 = 40 ∧
    0 ≤ (stageDepths 40).2.2 :=
  ⟨by norm_num,
   (stage_depths_split 40 (by norm_num)).2.2.2.1,
   (stage_depths_split 40 (by norm_num)).2.2.2.2.2.2⟩

/-- C7: a dense block of depth `N ≥ 0` keeps height/width and batch,
adds `N * growth_rate` channels (identity in channel count at `N = 0`),
and its channel slabs are the input's slabs followed by the units'
outputs in earliest-to-latest iteration order. -/
theorem block_growth (s : Shape) (n growthRate : Nat) (training : Bool)
    (init : List Nat) :
    blockShape s n growthRate training =
      ⟨s.batch, s.height, s.width, s.channels + n * growthRate⟩ ∧
    blockShape s 0 growthRate training = s ∧
    blockSegs init n = init ++ List.range n := by
  refine ⟨blockShape_eq n s growthRate training, rfl, blockSegs_eq init n⟩

/-- C3 counterexample: on an odd 17×17 input, `transition` does not fail;
it silently truncates to an 8×8 output (2×2 stride-2 valid pooling floors
the odd dimension). -/
theorem transition_odd_truncates :
    transitionShape ⟨128, 17, 17, 16⟩ true = ⟨128, 8, 8, 16⟩ := by decide

/-- C3 (amended): `transition` applies a unit layer whose output channel
count equals the input's own channel count, then 2×2 stride-2 valid
average pooling, so output height and width are each `⌊input/2⌋`; input
dimensions not divisible by 2 are floored silently — no dimension error
is raised. -/
theorem transition_halves (s : Shape) (training : Bool) :
    transitionShape s training = ⟨s.batch, s.height / 2, s.width / 2, s.channels⟩ ∧
    (unitLayerShape s s.channels training).channels = s.channels := by
  exact ⟨transitionShape_eq s training, rfl⟩

/-- C4 counterexample: at configured depth 3 < 4, network construction
does not fail: `inference` performs no depth validation, computes stage
depths `(0, 0, -1)`, runs the third block zero times (`range` of a
negative count is empty) and still produces `[128, 10]` logits. -/
theorem inference_depth3_succeeds :
    inferenceShape ⟨128, 32, 32, 3⟩ 3 12 true = (128, 10) ∧
    stageDepths 3 = (0, 0, -1) ∧ pyRangeLen (-1) = 0 := by decide

/-- C4 (amended): network construction performs no depth check and never
raises a configuration error for `depth < 4`: every stage's unit count
`range(stage_depth)` is empty, and construction succeeds, producing
`[batch, NUM_CLASSES]` logits. -/
theorem inference_small_depth_no_error (b : Nat) (d : Int) (g : Nat)
    (t : Bool) (hd : d < 4) :
    pyRangeLen (stageDepths d).1 = 0 ∧
    pyRangeLen (stageDepths d).2.1 = 0 ∧
    pyRangeLen (stageDepths d).2.2 = 0 ∧
    inferenceShape ⟨b, 32, 32, 3⟩ d g t = (b, NUM_CLASSES) := by
  have hneg : d - 4 = -(4 - d) := by ring
  have hpos : (0 : Int) ≤ 4 - d := by omega
  refine ⟨?_, ?_, ?_, inferenceShape_eq _ _ _ _⟩ <;>
  · simp only [stageDepths, pyIntDiv, pyRangeLen, hneg, Int.neg_tdiv,
      Int.tdiv_eq_ediv hpos (by norm_num : (0:Int) ≤ 3), Int.toNat_eq_zero]
    omega

/-- Witness for C4 (amended) at depth 3. -/
theorem inference_small_depth_no_error_witness :
    (3 : Int) < 4 ∧ inferenceShape ⟨128, 32, 32, 3⟩ 3 12 false = (128, NUM_CLASSES) :=
  ⟨by norm_num, (inference_small_depth_no_error 128 3 12 false (by norm_num)).2.2.2⟩

/-- C9: on a batch of `batch_size` 32×32×3 images, the assembled network
produces logits of shape `[batch_size, NUM_CLASSES]` with
`NUM_CLASSES = 10`, for both `training = true` and `training = false`,
and its first operation is a 3×3 stride-1 16-channel SAME convolution on
the raw image, which maps the input to `[batch, 32, 32, 16]`. -/
theorem inference_logits_shape (batch : Nat) (d : Int) (g : Nat) (training : Bool) :
    inferenceShape ⟨batch, 32, 32, 3⟩ d g training = (batch, NUM_CLASSES) ∧
    NUM_CLASSES = 10 ∧
    conv2dShape ⟨batch, 32, 32, 3⟩ 3 1 16 = ⟨batch, 32, 32, 16⟩ := by
  refine ⟨inferenceShape_eq _ _ _ _, rfl, ?_⟩
  simp [conv2dShape, sameOut_one]

/-- C2 counterexample: with one registered regularization penalty of 1
and a cross-entropy mean of 1, the first `loss` call returns 2, but a
second call on the resulting collection state returns 4: each call
re-extends the persistent `'losses'` collection with the registered
penalties and appends a fresh cross-entropy term, so repeated calls are
not idempotent and the penalty is counted twice. -/
theorem loss_second_call_double_counts :
    (lossCall (fun _ _ => 1) [[0]] [0] ⟨[], [1]⟩).1 = 2 ∧
    (lossCall (fun _ _ => 1) [[0]] [0]
      ((lossCall (fun _ _ => 1) [[0]] [0] ⟨[], [1]⟩).2)).1 = 4 := by
  constructor <;> norm_num [lossCall, reduceMean, castToInt64]

/-- C2 (amended): a `loss` call on an empty `'losses'` collection returns
the cross-entropy mean plus each registered penalty exactly once, and
leaves the collection holding the penalties and the cross-entropy mean;
but the collection is persistent, so a repeated call with the same
logits/labels and registered penalties returns twice that value — the
computation is not idempotent across calls. -/
theorem loss_pool_accounting (kernel : List ℚ → Int → ℚ)
    (logits : List (List ℚ)) (labels : List ℚ) (reg : List ℚ) :
    (lossCall kernel logits labels ⟨[], reg⟩).1 =
      reduceMean ((logits.zip (labels.map castToInt64)).map (fun p => kernel p.1 p.2))
        + reg.sum ∧
    (lossCall kernel logits labels ⟨[], reg⟩).2.losses =
      reg ++ [reduceMean ((logits.zip (labels.map castToInt64)).map
        (fun p => kernel p.1 p.2))] ∧
    (lossCall kernel logits labels
        ((lossCall kernel logits labels ⟨[], reg⟩).2)).1 =
      2 * ((lossCall kernel logits labels ⟨[], reg⟩).1) := by
  refine ⟨?_, ?_, ?_⟩
  · simp [lossCall]
    ring
  · simp [lossCall]
  · simp [lossCall]
    ring

/-- C10: `loss` casts its labels to int64 (truncation toward zero) before
the cross-entropy, so labels of a non-integer numeric dtype whose
elements are integral class indices in `[0, NUM_CLASSES)` — e.g. the
float16 labels produced by the input pipeline under `use_fp16`, which
represent 0–9 exactly — give exactly the loss of the corresponding
integer labels, for every softmax kernel and collection state. -/
theorem loss_label_cast_lossless (kernel : List ℚ → Int → ℚ)
    (logits : List (List ℚ)) (ks : List Int) (st : LossState)
    (hrange : ∀ k ∈ ks, 0 ≤ k ∧ k < (NUM_CLASSES : Int)) :
    lossCall kernel logits (ks.map (fun k : Int => (Int.cast k : ℚ))) st =
      lossCallInt kernel logits ks st := by
  simp only [lossCall, lossCallInt, map_castToInt64_intCast]

/-- Witness for C10: labels `[3, 0]` supplied as rationals give the same
loss as the integer labels `[3, 0]`. -/
theorem loss_label_cast_lossless_witness :
    (∀ k ∈ ([3, 0] : List Int), 0 ≤ k ∧ k < (NUM_CLASSES : Int)) ∧
    lossCall (fun r l => r.headD 0 + (Int.cast l : ℚ)) [[5], [7]]
        (([3, 0] : List Int).map (fun k : Int => (Int.cast k : ℚ))) ⟨[], [2]⟩ =
      lossCallInt (fun r l => r.headD 0 + (Int.cast l : ℚ)) [[5], [7]] [3, 0]
        ⟨[], [2]⟩ :=
  ⟨by decide,
   loss_label_cast_lossless (fun r l => r.headD 0 + (Int.cast l : ℚ)) [[5], [7]]
     [3, 0] ⟨[], [2]⟩ (by decide)⟩

/-- On sorted boundaries with one more value than boundary, the nested
conditionals of `piecewise_constant` select the value indexed by the
number of boundaries strictly below the query point. -/
theorem piecewiseConstant_eq_spec (x : ℚ) (bs vs : List ℚ)
    (hlen : bs.length + 1 = vs.length) (hsorted : bs.Sorted (· ≤ ·)) :
    piecewiseConstant x bs vs = piecewiseConstantSpec x bs vs := by
  induction bs generalizing vs with
  | nil =>
      match vs, hlen with
      | [v], _ => rfl
  | cons b tl ih =>
      match vs, hlen with
      | v :: vs', hlen =>
        rw [piecewiseConstant, piecewiseConstantSpec]
        by_cases hx : x ≤ b
        · rw [if_pos hx]
          have hcount : (b :: tl).countP (fun c => decide (c < x)) = 0 := by
            rw [List.countP_eq_zero]
            intro c hc
            rcases List.mem_cons.mp hc with hcb | hctl
            · subst hcb
              simpa using not_lt.mpr hx
            · have hbc : b ≤ c := (List.sorted_cons.mp hsorted).1 c hctl
              simp only [decide_eq_true_eq]
              exact not_lt.mpr (le_trans hx hbc)
          rw [hcount]
          rfl
        · rw [if_neg hx]
          have hbx : b < x := not_le.mp hx
          have hcount : (b :: tl).countP (fun c => decide (c < x)) =
              tl.countP (fun c => decide (c < x)) + 1 := by
            rw [List.countP_cons]
            simp [hbx]
          rw [ih vs' (by simpa using hlen) (List.sorted_cons.mp hsorted).2,
            piecewiseConstantSpec, hcount]
          rfl

/-- C6: `train`'s learning rate is the piecewise-constant function of
`global_step * batch_size / examples_per_epoch` over the caller-supplied
boundaries and values — selecting `values[k]` where `k` counts the
boundaries strictly below that epoch position — and setup fails with the
length assertion whenever `len(lr_values) ≠ len(lr_boundaries) + 1`. -/
theorem lr_schedule (boundaries values : List ℚ) (batchSize examplesPerEpoch : ℚ) :
    (values.length ≠ boundaries.length + 1 →
      ∃ msg, trainLrSetup boundaries values batchSize examplesPerEpoch =
        Except.error msg) ∧
    (values.length = boundaries.length + 1 → boundaries.Sorted (· ≤ ·) →
      ∃ f, trainLrSetup boundaries values batchSize examplesPerEpoch =
          Except.ok f ∧
        ∀ globalStep, f globalStep =
          piecewiseConstantSpec (globalStep * batchSize / examplesPerEpoch)
            boundaries values) := by
  constructor
  · intro hne
    refine ⟨"len(lr_boundaries)+1 must be equal to len(lr_values)", ?_⟩
    rw [trainLrSetup, if_neg]
    omega
  · intro hlen hsorted
    refine ⟨fun globalStep =>
      piecewiseConstant (globalStep * batchSize / examplesPerEpoch)
        boundaries values, ?_, ?_⟩
    · rw [trainLrSetup, if_pos]
      omega
    · intro gs
      exact piecewiseConstant_eq_spec _ _ _ (by omega) hsorted

/-- Witness for C6: the default schedule (boundaries 150, 225 epochs;
values 0.1, 0.01, 0.001) passes the length check and follows the
piecewise-constant characterisation, while 2 boundaries with 2 values
fail the assertion. -/
theorem lr_schedule_witness :
    (([1/10, 1/100] : List ℚ).length ≠ ([150, 225] : List ℚ).length + 1 ∧
      ∃ msg, trainLrSetup [150, 225] [1/10, 1/100] 128 50000 =
        Except.error msg) ∧
    (([1/10, 1/100, 1/1000] : List ℚ).length = ([150, 225] : List ℚ).length + 1 ∧
      ([150, 225] : List ℚ).Sorted (· ≤ ·) ∧
      ∃ f, trainLrSetup [150, 225] [1/10, 1/100, 1/1000] 128 50000 =
          Except.ok f ∧
        ∀ globalStep, f globalStep =
          piecewiseConstantSpec (globalStep * 128 / 50000) [150, 225]
            [1/10, 1/100, 1/1000]) :=
  ⟨⟨by decide,
    (lr_schedule [150, 225] [1/10, 1/100] 128 50000).1 (by decide)⟩,
   ⟨by decide, by decide,
    (lr_schedule [150, 225] [1/10, 1/100, 1/1000] 128 50000).2 (by decide)
      (by decide)⟩⟩

/-- C5 counterexample: the graph built by `train` imposes no dependency
path from the parameter moving-average op down to `apply_gradient_op`:
the EMA update is not ordered after the gradient application. -/
theorem ema_not_after_gradient_application :
    runsAfter .variablesAveragesOp .applyGradientOp = false := by decide

/-- C5 (amended): the gradient application and the parameter
moving-average update are each prerequisites of the per-step `train_op`,
but `train` orders neither after the other: no dependency path runs
between `apply_gradient_op` and `variables_averages_op` in either
direction, so the EMA is not guaranteed to read post-update values. -/
theorem train_step_op_ordering :
    runsAfter .trainOp .applyGradientOp = true ∧
    runsAfter .trainOp .variablesAveragesOp = true ∧
    runsAfter .applyGradientOp .lossAveragesOp = true ∧
    runsAfter .variablesAveragesOp .applyGradientOp = false ∧
    runsAfter .applyGradientOp .variablesAveragesOp = false := by decide

/-- C8: one training step increments the global step by exactly one and
replaces each parameter `p` with `p - lr * g`, where `g` is the gradient
of the total loss taken at the parameters as they stood before this
step's update; consequently, when the learning rate is nonzero a
parameter changes exactly when its gradient is nonzero. -/
theorem sgd_step_update (lr : ℚ) (gradFn : List ℚ → List ℚ) (s : TrainState)
    (i : Nat) (hi : i < s.params.length) (hg : i < (gradFn s.params).length) :
    (sgdStep lr gradFn s).globalStep = s.globalStep + 1 ∧
    (sgdStep lr gradFn s).params.getD i 0 =
      s.params.getD i 0 - lr * (gradFn s.params).getD i 0 ∧
    (lr ≠ 0 →
      ((sgdStep lr gradFn s).params.getD i 0 ≠ s.params.getD i 0 ↔
        (gradFn s.params).getD i 0 ≠ 0)) := by
  have hlen : i < (List.zipWith (fun p g => p - lr * g) s.params
      (gradFn s.params)).length := by
    rw [List.length_zipWith]
    omega
  have hupd : (sgdStep lr gradFn s).params.getD i 0 =
      s.params.getD i 0 - lr * (gradFn s.params).getD i 0 := by
    rw [sgdStep]
    rw [List.getD_eq_getElem _ _ hlen, List.getElem_zipWith,
      List.getD_eq_getElem _ _ hi, List.getD_eq_getElem _ _ hg]
  refine ⟨rfl, hupd, fun hlr => ?_⟩
  rw [hupd]
  constructor
  · intro hne
    intro hg0
    apply hne
    rw [hg0]
    ring
  · intro hg0 heq
    have : lr * (gradFn s.params).getD i 0 = 0 := by linarith [sub_eq_self.mp heq]
    exact hg0 ((mul_eq_zero.mp this).resolve_left hlr)

/-- Witness for C8: a concrete step with `lr = 1/2` and gradients
`[4, 0]` from parameters `[1, 2]` at global step 5. -/
theorem sgd_step_update_witness :
    (sgdStep (1/2) (fun _ => [4, 0]) ⟨[1, 2], 5⟩).globalStep = 5 + 1 ∧
    (sgdStep (1/2) (fun _ => [4, 0]) ⟨[1, 2], 5⟩).params.getD 0 0 =
      ([1, 2] : List ℚ).getD 0 0 - (1/2) * (([4, 0] : List ℚ).getD 0 0) ∧
    ((1 : ℚ)/2 ≠ 0 →
      ((sgdStep (1/2) (fun _ => [4, 0]) ⟨[1, 2], 5⟩).params.getD 0 0 ≠
          ([1, 2] : List ℚ).getD 0 0 ↔
        (([4, 0] : List ℚ).getD 0 0 ≠ 0))) :=
  sgd_step_update (1/2) (fun _ => [4, 0]) ⟨[1, 2], 5⟩ 0 (by decide) (by decide)

end Cifar10
